import Mathlib

set_option maxRecDepth 10000
set_option linter.unusedVariables false

/-!
# Verification of the ASMBL assembly-pipeline orchestrator (`asmpipe.py`)

This development shallowly embeds the orchestration core of `asmpipe.py`:
sample discovery and pairing validation, per-stage resume markers, the
per-stage worker dispatch and failure handling, the success/failure
manifests, and the final outer-join report.  External tools (trim_galore,
unicycler, bwa, ...) are opaque: the environment records, per batch or per
sample, whether their invocations succeed.  Filesystem existence checks are
abstracted by a predicate `present` on paths; the relative paths used by the
script are kept verbatim (the `current_dir` prefix is elided uniformly).
-/

namespace Asmbl

/-- Python `str.replace(old, new)` on character lists: replaces non-overlapping
occurrences scanning the original string left to right (the produced text is
not rescanned).  Fuel-driven structural recursion; fuel is the string length,
which bounds the number of steps since each step consumes at least one
character when `old` is nonempty. -/
def pyReplaceCore (old new : List Char) : Nat → List Char → List Char
  | _, [] => []
  | 0, cs => cs
  | fuel+1, c :: cs =>
    if old.isPrefixOf (c :: cs) && !old.isEmpty then
      new ++ pyReplaceCore old new fuel ((c :: cs).drop old.length)
    else
      c :: pyReplaceCore old new fuel cs

/-- Python `s.replace(old, new)`. -/
def pyReplace (s old new : String) : String :=
  String.mk (pyReplaceCore old.data new.data s.data.length s.data)

/-- Substring occurrence on character lists. -/
def containsSub (sub : List Char) : List Char → Bool
  | [] => sub.isEmpty
  | c :: cs => sub.isPrefixOf (c :: cs) || containsSub sub cs

/-- Python `s.find(sub) != -1` (substring containment). -/
def pyFind (s sub : String) : Bool := containsSub sub.data s.data

/-- Python `s.endswith(sfx)`. -/
def pyEndsWith (s sfx : String) : Bool := sfx.data.isSuffixOf s.data

/-- Python `s[:-n]` (for `n` at most the length; otherwise empty, as in Python). -/
def pyDropRight (s : String) (n : Nat) : String :=
  String.mk (s.data.take (s.data.length - n))

/-- Models Python `set(...)` iteration (and pandas `drop_duplicates`): the
source iterates over a `set`, whose iteration order is unspecified
(hash-randomised); it is modelled as first-occurrence order. -/
def pyDedupAux [BEq α] (seen : List α) : List α → List α
  | [] => []
  | x :: xs => if seen.contains x then pyDedupAux seen xs else x :: pyDedupAux (x :: seen) xs

/-- First-occurrence deduplication; see `pyDedupAux`. -/
def pyDedup [BEq α] (l : List α) : List α := pyDedupAux [] l

/-- The resume check `file_exists` (asmpipe.py lines 69-78): collects the members of `seqlist`
for which `path + seq + extention` does not exist; returns `none`
(Python `None`, falsy) when every file exists. -/
def file_exists (seqlist : List String) (program : String) (path : String)
    (extention : String) (present : String → Bool) : Option (List String) :=
  let re_run := seqlist.filter (fun seq => !(present (path ++ seq ++ extention)))
  if re_run.isEmpty then none else some re_run

/-- One `rename 's/pat/rep/g' *sel*` invocation (lines 182-183): every listed
file whose name contains `sel` has all occurrences of `pat` replaced. -/
def renameStep (pat rep sel : String) (listing : List String) : List String :=
  listing.map (fun f => if pyFind f sel then pyReplace f pat rep else f)

/-- The four rename commands of lines 182-183, in source order. -/
def renameAll (listing : List String) : List String :=
  renameStep "_R2_001" "_2" "R2"
    (renameStep "_R1_001" "_1" "R1"
      (renameStep "_L001_R2_001" "_2" "R2"
        (renameStep "_L001_R1_001" "_1" "R1" listing)))

/-- Sample-identity derivation (lines 185-192): for each globbed file, strip
every `.gz`, then if the result contains `_1.fastq` (resp. `_2.fastq`) and its
last 8 characters stripped is not yet listed, append it. -/
def deriveIds (acc : List String) : List String → List String
  | [] => acc
  | sequence :: rest =>
    let name := pyReplace sequence ".gz" ""
    let base := pyDropRight name 8
    let acc1 := if pyFind name "_1.fastq" && !(acc.contains base) then acc ++ [base] else acc
    let acc2 := if pyFind name "_2.fastq" && !(acc1.contains base) then acc1 ++ [base] else acc1
    deriveIds acc2 rest

/-- Pairing validation (lines 194-205): a sample is missing pairs unless some
raw file name contains `<sample>_1.f` and some raw file name contains
`<sample>_2.f`. -/
def missingPairs (sequence_list sequences : List String) : List String :=
  sequence_list.filter (fun seqName =>
    !(sequences.any (fun s => pyFind s (seqName ++ "_1.f")) &&
      sequences.any (fun s => pyFind s (seqName ++ "_2.f"))))

/-! ## Shell-job semantics

`run_command` raises `CommandError` on a non-zero exit status.  Two chaining
disciplines occur in the source: a single shell string whose commands are
separated by `;` (every command runs, the job status is the last command's),
and a Python `try:` block of successive `run_command` calls (execution stops
at the first failing command).  A command is modelled as its text paired with
whether its invocation succeeds. -/

/-- Commands executed by a `;`-chained shell job: all of them, unconditionally. -/
def semiChainRuns (cmds : List (String × Bool)) : List String := cmds.map Prod.fst

/-- Commands executed by a `try:` block of `run_command` calls: the prefix up
to and including the first failing command. -/
def tryChainRuns : List (String × Bool) → List String
  | [] => []
  | (c, true) :: rest => c :: tryChainRuns rest
  | (c, false) :: _ => [c]

/-- A `try:` block of `run_command` calls completes without exception iff
every command exits zero. -/
def tryChainOk (cmds : List (String × Bool)) : Bool := cmds.all Prod.snd

/-- The per-sample assembly job (lines 328-329), commands chained with `;`
inside one parallel work unit. -/
def assemblyJobCmds (seq : String) (unicyclerOk : Bool) : List (String × Bool) :=
  [ ("unicycler -1 " ++ seq ++ "_1_val_1.fq.gz -2 " ++ seq ++ "_2_val_2.fq.gz -o ../assembly/" ++ seq ++ "_assembly", unicyclerOk),
    ("touch ../success/" ++ seq ++ "_Assembly_complete.txt", true),
    ("mv ../" ++ seq ++ "_?.fastq.gz ../Fastq_raw", true) ]

/-- Whether the assembly job leaves the `_Assembly_complete.txt` sentinel for
`seq`, as a function of the unicycler invocation outcome. -/
def assemblyMarkerTouched (seq : String) (unicyclerOk : Bool) : Bool :=
  (semiChainRuns (assemblyJobCmds seq unicyclerOk)).contains
    ("touch ../success/" ++ seq ++ "_Assembly_complete.txt")

/-- The per-sample read-depth job (lines 408-424): three `run_command` calls
for the external tools, then a fourth `run_command` touching the sentinel,
all inside one `try:` block.  `toolsOk` records whether the tool invocations
exit zero. -/
def depthJobCmds (item : String) (toolsOk : Bool) : List (String × Bool) :=
  [ ("bwa index " ++ item, toolsOk),
    ("bwa mem | picard converts and sorts " ++ item, toolsOk),
    ("samtools depth " ++ item, toolsOk),
    ("touch success/" ++ item ++ "_readDepth.Success", true) ]

/-- Whether the read-depth job leaves the `_readDepth.Success` sentinel for
`item`, as a function of the tool invocation outcomes. -/
def depthMarkerTouched (item : String) (toolsOk : Bool) : Bool :=
  (tryChainRuns (depthJobCmds item toolsOk)).contains
    ("touch success/" ++ item ++ "_readDepth.Success")

/-! ## Pipeline state and environment -/

/-- A report table: a key (`Assembly`) column plus `width` further cells per
row; a missing cell is `none`. -/
structure Table where
  width : Nat
  rows : List (String × List (Option String))
deriving DecidableEq, Repr

/-- The empty table. -/
def emptyTable : Table := ⟨0, []⟩

/-- The external environment of one run: the directory listing (in
`os.listdir` order, after the `Fastq_raw/*fastq.gz` files were moved into the
working directory, line 176), filesystem existence, the outcomes of the
opaque tool invocations, and the parseable content of the four report
inputs (`none` = the file is absent, so `pd.read_csv` raises). -/
structure Env where
  listing : List String
  present : String → Bool
  trimBatchOk : Bool
  fastqcBatchOk : Bool
  unicyclerOk : String → Bool
  depthOk : String → Bool
  mlstTable : Option Table
  quastTable : Option Table
  covTable : Option Table
  fastqcTable : Option Table

/-- The mutable orchestration state threaded through the stages:
`sequence_list` (the active sample set), `unsuccessful_sequences`, plus the
observables of the run: per-sample worker dispatches `(stage, work item)`,
sentinel files touched, and the stage blocks entered. -/
structure St where
  sequence_list : List String
  unsuccessful : List String
  dispatched : List (String × String)
  markers : List String
  stagesRun : List String
deriving DecidableEq, Repr

/-- Default state (used only as the `getD` fallback past the end of the
stage-state chain). -/
def stDefault : St := ⟨[], [], [], [], []⟩

/-- Append a stage tag to the record of entered stage blocks. -/
def addStage (tag : String) (s : St) : St :=
  { s with stagesRun := s.stagesRun ++ [tag] }

/-- Trimming (lines 229-257).  The pending list is rebuilt from the two
`file_exists` checks on the trimmed outputs; if non-empty, one parallel
batch is dispatched over its deduplicated form.  If the batch reports a
non-zero status, the `except:` clause removes and records *the loop variable
`item` left over from writing `uniq_trimgalore_list.txt`*, i.e. the last
element of the set iteration — not the sample whose worker failed. -/
def trimStage (env : Env) (s : St) : St :=
  let run_list :=
    (file_exists s.sequence_list "trimgalore" "./trimmed_reads/" "_1_val_1.fq.gz" env.present).getD []
    ++ (file_exists s.sequence_list "trimgalore" "./trimmed_reads/" "_2_val_2.fq.gz" env.present).getD []
  if run_list.isEmpty then s
  else
    let uniq := pyDedup run_list
    let s1 := { s with stagesRun := s.stagesRun ++ ["trim"],
                       dispatched := s.dispatched ++ uniq.map (fun i => ("trim", i)) }
    if env.trimBatchOk then s1
    else
      let item := uniq.getLastD ""
      { s1 with sequence_list := s1.sequence_list.erase item,
                unsuccessful := s1.unsuccessful ++ [item] }

/-- FastQC/MultiQC (lines 260-300), entered when neither `--nofqc` nor
`--noex` is set; MultiQC runs regardless of the pending list.  The pending
work items are *file names* `<sample>_1_val_1.fq.gz` / `<sample>_2_val_2.fq.gz`.
On a failing batch the dangling loop variable (the last set element) is
appended to `unsuccessful_sequences` — and nothing is removed from
`sequence_list`. -/
def fastqcStage (env : Env) (s : St) : St :=
  let s0 := addStage "fastqc_multiqc" s
  let run_list :=
    ((file_exists s0.sequence_list "fastqc" "./QC/fastQC/" "_1_val_1_fastqc.zip" env.present).getD []).map
      (fun i => i ++ "_1_val_1.fq.gz")
    ++ ((file_exists s0.sequence_list "fastqc" "./QC/fastQC/" "_2_val_2_fastqc.zip" env.present).getD []).map
      (fun i => i ++ "_2_val_2.fq.gz")
  if run_list.isEmpty then s0
  else
    let uniq := pyDedup run_list
    let s1 := { s0 with dispatched := s0.dispatched ++ uniq.map (fun i => ("fastqc", i)) }
    if env.fastqcBatchOk then s1
    else { s1 with unsuccessful := s1.unsuccessful ++ [uniq.getLastD ""] }

/-- Assembly (lines 302-331).  The pending list keeps the samples without a
`success/<seq>_Assembly_complete.txt` sentinel; one parallel batch runs the
`;`-chained per-sample job, so the sentinel is touched no matter how
unicycler exited, and the `except:` clause only logs — nothing is ever
removed from `sequence_list` here. -/
def assemblyStage (env : Env) (s : St) : St :=
  let run_list := s.sequence_list.filter
    (fun seq => !(env.present ("success/" ++ seq ++ "_Assembly_complete.txt")))
  if run_list.isEmpty then s
  else
    let uniq := pyDedup run_list
    { s with stagesRun := s.stagesRun ++ ["assembly"],
             dispatched := s.dispatched ++ uniq.map (fun i => ("assembly", i)),
             markers := s.markers ++
               (uniq.filter (fun i => assemblyMarkerTouched i (env.unicyclerOk i))).map
                 (fun i => "success/" ++ i ++ "_Assembly_complete.txt") }

/-- One iteration of the read-depth per-sample loop (lines 406-429): the
`try:` block touches the sentinel only after the tool commands succeed;
on exception, *this* item is removed from `sequence_list` and recorded. -/
def depthItem (env : Env) (st : St) (item : String) : St :=
  let st1 := { st with dispatched := st.dispatched ++ [("depth", item)],
                       markers := st.markers ++
                         (if depthMarkerTouched item (env.depthOk item)
                          then ["success/" ++ item ++ "_readDepth.Success"]
                          else []) }
  if tryChainOk (depthJobCmds item (env.depthOk item)) then st1
  else { st1 with sequence_list := st1.sequence_list.erase item,
                  unsuccessful := st1.unsuccessful ++ [item] }

/-- Read depth (lines 389-432), entered when neither `--nocov` nor `--noex`
is set (the trailing `cat` aggregation runs regardless of the pending list).
The pending list keeps the samples without a `success/<seq>_readDepth.Success`
sentinel; the work is a sequential per-item loop. -/
def depthStage (env : Env) (s : St) : St :=
  let s0 := addStage "depth" s
  let run_list := s0.sequence_list.filter
    (fun seq => !(env.present ("success/" ++ seq ++ "_readDepth.Success")))
  if run_list.isEmpty then s0
  else (pyDedup run_list).foldl (depthItem env) s0

/-! ## Report aggregation (lines 456-491) -/

/-- A row of `padRow w` empty cells. -/
def padRow (w : Nat) : List (Option String) := List.replicate w none

/-- The merged rows contributed by one left row: joined with each matching
right row, or padded with empty right cells when the right table lacks the
key. -/
def mergeRow (t2 : Table) (r : String × List (Option String)) :
    List (String × List (Option String)) :=
  let ms := t2.rows.filter (fun r2 => r2.1 == r.1)
  if ms.isEmpty then [(r.1, r.2 ++ padRow t2.width)]
  else ms.map (fun r2 => (r.1, r.2 ++ r2.2))

/-- Semantics of `pd.merge(t1, t2, on='Assembly', how='outer')`: every left row is kept
(see `mergeRow`), and right rows with unmatched keys are appended, padded on
the left. -/
def mergeOuter (t1 t2 : Table) : Table :=
  { width := t1.width + t2.width,
    rows :=
      (t1.rows.map (mergeRow t2)).flatten
      ++ (t2.rows.filter (fun r2 => !(t1.rows.any (fun r => r.1 == r2.1)))).map
          (fun r2 => (r2.1, padRow t1.width ++ r2.2)) }

/-- Semantics of `df.replace(pat, "", regex=True)` restricted to the join key.  The source
applies the substitution to every cell; only the `Assembly` column can affect
the join, and the non-key cells are opaque here. -/
def normTable (pat : String) (t : Table) : Table :=
  ⟨t.width, t.rows.map (fun r => (pyReplace r.1 pat "", r.2))⟩

/-- The report join chain: `seq_df` (one keyed row per sample in the final
`sequence_list`, no cells) outer-merged in turn with the mlst table (keys
stripped of `_assembly.fasta`), the Quast table (keys stripped of
`_assembly`), the read-depth table (cells stripped of spaces) and the
deduplicated FastQC read-count table (keys stripped of the `_?_val_?`
suffixes). -/
def reportTables (sequence_list : List String) (mlst quast cov fastqc : Table) : Table :=
  let seq_df : Table := ⟨0, sequence_list.map (fun s => (s, []))⟩
  let t1 := mergeOuter seq_df (normTable "_assembly.fasta" mlst)
  let t2 := mergeOuter t1 (normTable "_assembly" quast)
  let t3 := mergeOuter t2 (normTable " " cov)
  let fq := normTable "_2_val_2" (normTable "_1_val_1" fastqc)
  mergeOuter t3 ⟨fq.width, pyDedup fq.rows⟩

/-- The faults by which the report step can abort the process. -/
inductive RepErr
  | missingTable (path : String)
deriving DecidableEq, Repr

/-- The report step (lines 456-491): each `pd.read_csv` is unguarded, so the
first absent input (in source read order: mlst, Quast, read depth, FastQC)
raises an unhandled exception. -/
def reportStep (env : Env) (sequence_list : List String) : Except RepErr Table :=
  match env.mlstTable, env.quastTable, env.covTable, env.fastqcTable with
  | none, _, _, _ => .error (.missingTable "analyses/mlst.tsv")
  | some _, none, _, _ => .error (.missingTable "QC/Quast/transposed_report.tsv")
  | some _, some _, none, _ => .error (.missingTable "QC/readDepth/overall__readDepth.tsv")
  | some _, some _, some _, none =>
    .error (.missingTable "QC/multiqc_trimmed/multiqc_data/multiqc_fastqc.txt")
  | some m, some q, some c, some f => .ok (reportTables sequence_list m q c f)

/-! ## The driver (`main`) -/

/-- The stage-skip configuration switches (`parse_args`). -/
structure Args where
  noex : Bool
  nofqc : Bool
  nomlst : Bool
  noquast : Bool
  nocov : Bool
  klebs : Bool
deriving DecidableEq, Repr

/-- FastQC/MultiQC gate (line 261). -/
def stage2 (args : Args) (env : Env) (s : St) : St :=
  if !args.nofqc && !args.noex then fastqcStage env s else s

/-- Quast gate (line 361); the stage only reads and reports, leaving the
sample sets unchanged. -/
def stage4 (args : Args) (s : St) : St :=
  if !args.noquast && !args.noex then addStage "quast" s else s

/-- MLST gate (line 381); the stage writes `analyses/mlst.tsv`, leaving the
sample sets unchanged. -/
def stage5 (args : Args) (s : St) : St :=
  if !args.nomlst && !args.noex then addStage "mlst" s else s

/-- Read-depth gate (line 390). -/
def stage6 (args : Args) (env : Env) (s : St) : St :=
  if !args.nocov && !args.noex then depthStage env s else s

/-- Kleborate gate (line 436): conditioned on `--klebs` only — `--noex` is
not consulted. -/
def stage7 (args : Args) (s : St) : St :=
  if args.klebs then addStage "kleborate" s else s

/-- The stage transformers of `main`, in source order. -/
def chainFns (args : Args) (env : Env) : List (St → St) :=
  [trimStage env, stage2 args env, assemblyStage env, stage4 args,
   stage5 args, stage6 args env, stage7 args]

/-- The successive states of the driver: the initial state followed by the
state after each stage. -/
def chainStates (s : St) : List (St → St) → List St
  | [] => [s]
  | f :: fs => s :: chainStates (f s) fs

/-- The eight driver states of one run, from the post-validation initial
state through the seven stage blocks. -/
def runStages (args : Args) (env : Env) (st0 : St) : List St :=
  chainStates st0 (chainFns args env)

/-- The driver's final state: all seven stage blocks applied in order. -/
def pipeline (args : Args) (env : Env) (st0 : St) : St :=
  (chainFns args env).foldl (fun st f => f st) st0

/-- The file names globbed by `glob.glob("*fastq.gz")` (line 185), after the
rename normalisation. -/
def discoveredSeqs (env : Env) : List String :=
  (renameAll env.listing).filter (fun f => pyEndsWith f "fastq.gz")

/-- The discovered sample identities (lines 185-192). -/
def discoveredIds (env : Env) : List String :=
  deriveIds [] (discoveredSeqs env)

/-- The missing-pair list of the run (lines 194-205). -/
def missingOf (env : Env) : List String :=
  missingPairs (discoveredIds env) (discoveredSeqs env)

/-- How one invocation of `main` terminates. -/
inductive Outcome
  | finished
  | pairingHalt
  | nameFault
  | readFault (path : String)
deriving DecidableEq, Repr

/-- The observables of one `main` invocation. -/
structure RunResult where
  outcome : Outcome
  dispatched : List (String × String)
  stagesRun : List String
  markers : List String
  manifests : Option (List String × List String)
  report : Option Table
  logs : List String
deriving DecidableEq, Repr

/-- The driver state after the seven stage blocks, starting from the
post-validation initial state (active set = the discovered identities). -/
def finalSt (args : Args) (env : Env) : St :=
  pipeline args env
    { sequence_list := discoveredIds env, unsuccessful := [],
      dispatched := [], markers := [], stagesRun := [] }

/-- The driver `main` (lines 110-501).  If no listed file ends in `.fastq.gz`, the big
`else` logs an error and falls through to the report section, where `seq_df`
references the never-assigned `sequence_list` and raises `NameError`.
Otherwise discovery and pairing validation run; a non-empty missing-pair list
is a `sys.exit` before any stage.  Otherwise the seven stage blocks run, the
two manifests are written from the final state, and the report step follows
(its own fault leaves the manifests in place).  `check_versions_doc` and the
best-effort housekeeping commands are modelled as succeeding. -/
def mainModel (args : Args) (env : Env) : RunResult :=
  if env.listing.any (fun f => pyEndsWith f ".fastq.gz") then
    if (missingOf env).isEmpty then
      match reportStep env (finalSt args env).sequence_list with
      | .ok t =>
        ⟨.finished, (finalSt args env).dispatched, (finalSt args env).stagesRun,
          (finalSt args env).markers,
          some ((finalSt args env).sequence_list, (finalSt args env).unsuccessful),
          some t, []⟩
      | .error (.missingTable p) =>
        ⟨.readFault p, (finalSt args env).dispatched, (finalSt args env).stagesRun,
          (finalSt args env).markers,
          some ((finalSt args env).sequence_list, (finalSt args env).unsuccessful),
          none, []⟩
    else
      ⟨.pairingHalt, [], [], [], none, none,
        ["Pipeline Stopped: please fix sequence pairs"]⟩
  else
    ⟨.nameFault, [], [], [], none, none,
      ["ERROR: Please provide input files in fastq.gz format."]⟩

/-! ## Concrete runs used by the claim theorems -/

/-- All optional stages enabled, no Kleborate. -/
def argsAll : Args := ⟨false, false, false, false, false, false⟩

/-- No-extras mode together with the Kleborate switch. -/
def argsNoexKlebs : Args := ⟨true, false, false, false, false, true⟩

/-- A fresh, fault-free run on one paired sample `A`. -/
def envIdeal : Env :=
  { listing := ["A_1.fastq.gz", "A_2.fastq.gz"],
    present := fun _ => false,
    trimBatchOk := true, fastqcBatchOk := true,
    unicyclerOk := fun _ => true, depthOk := fun _ => true,
    mlstTable := some emptyTable, quastTable := some emptyTable,
    covTable := some emptyTable, fastqcTable := some emptyTable }

/-- A pure resume on one paired sample: every checked file and sentinel is
already on disk. -/
def envAllDone : Env :=
  { envIdeal with present := fun _ => true }

/-- Three paired samples `A,B,C`, with assembly sentinels on disk for `A` and
`B` only. -/
def envABC : Env :=
  { envIdeal with
    listing := ["A_1.fastq.gz", "A_2.fastq.gz", "B_1.fastq.gz", "B_2.fastq.gz",
                "C_1.fastq.gz", "C_2.fastq.gz"],
    present := fun p =>
      p == "success/A_Assembly_complete.txt" || p == "success/B_Assembly_complete.txt" }

/-- Two paired samples `A,B` whose trimming batch reports a non-zero status
(as happens whenever any one trim_galore job fails under `parallel`). -/
def envTrimFail : Env :=
  { envIdeal with
    listing := ["A_1.fastq.gz", "A_2.fastq.gz", "B_1.fastq.gz", "B_2.fastq.gz"],
    trimBatchOk := false }

/-- One paired sample `S1` whose unicycler invocation fails and whose
read-depth tool chain fails. -/
def envAsmFail : Env :=
  { envIdeal with
    listing := ["S1_1.fastq.gz", "S1_2.fastq.gz"],
    unicyclerOk := fun _ => false, depthOk := fun _ => false }

/-- A fault-free run on sample `A` for which `analyses/mlst.tsv` does not
exist when the report step reads it. -/
def envNoMlst : Env :=
  { envIdeal with mlstTable := none }

/-- One file without its mate. -/
def envOneMiss : Env :=
  { envIdeal with listing := ["A_1.fastq.gz"] }

/-- A directory with no `.fastq.gz` file at all. -/
def envNoInput : Env :=
  { envIdeal with listing := ["readme.txt"] }

/-- Eight raw files whose identities, after the repeated `.gz` stripping of
discovery, are `A_2_val_2.fq.gz`, `A_2_val_2.fq` and `A` — so the identity
`A_2_val_2.fq.gz` coincides with the FastQC work-item file name derived from
sample `A`.  All pairs validate; the FastQC batch fails. -/
def envCollide : Env :=
  { envIdeal with
    listing := ["A_2_val_2.fq.g.gzz_1.fastq.gz", "A_2_val_2.fq.g.gzz_2.fastq.gz",
                "A_2_val_2.fq.gz_1.fastq.gz", "A_2_val_2.fq.gz_2.fastq.gz",
                "A_2_val_2.fq_1.fastq.gz", "A_2_val_2.fq_2.fastq.gz",
                "A_1.fastq.gz", "A_2.fastq.gz"],
    fastqcBatchOk := false }

/-! ## Helper lemmas -/

lemma getLastD_mem {α : Type} : ∀ (l : List α) (d : α), l ≠ [] → l.getLastD d ∈ l := by
  intro l
  induction l with
  | nil => intro d h; exact absurd rfl h
  | cons a t ih =>
    intro d _
    rw [List.getLastD_cons]
    cases t with
    | nil => exact List.mem_singleton_self a
    | cons b u => exact List.mem_cons_of_mem a (ih a (by simp))

lemma pyDedupAux_subset {α : Type} [BEq α] (seen : List α) :
    ∀ (l : List α) (x : α), x ∈ pyDedupAux seen l → x ∈ l := by
  intro l
  induction l generalizing seen with
  | nil => intro x h; simp [pyDedupAux] at h
  | cons a t ih =>
    intro x h
    rw [pyDedupAux] at h
    split at h
    · exact List.mem_cons_of_mem a (ih seen x h)
    · rcases List.mem_cons.mp h with rfl | h
      · exact List.mem_cons_self x t
      · exact List.mem_cons_of_mem a (ih (a :: seen) x h)

lemma pyDedup_subset {α : Type} [BEq α] (l : List α) (x : α) :
    x ∈ pyDedup l → x ∈ l :=
  pyDedupAux_subset [] l x

lemma pyDedup_getLastD_mem (l : List String) (h : l ≠ []) :
    (pyDedup l).getLastD "" ∈ l := by
  apply pyDedup_subset
  apply getLastD_mem
  cases l with
  | nil => exact absurd rfl h
  | cons a t => simp [pyDedup, pyDedupAux]

lemma file_exists_mem (seqlist : List String) (program path extention : String)
    (present : String → Bool) (w : String)
    (h : w ∈ (file_exists seqlist program path extention present).getD []) :
    w ∈ seqlist ∧ present (path ++ w ++ extention) = false := by
  rw [file_exists] at h
  split at h
  · simp at h
  · simp only [Option.getD_some] at h
    have := List.mem_filter.mp h
    refine ⟨this.1, ?_⟩
    simpa using this.2

lemma file_exists_subset (seqlist : List String) (program path extention : String)
    (present : String → Bool) :
    (file_exists seqlist program path extention present).getD [] ⊆ seqlist :=
  fun _ h => (file_exists_mem _ _ _ _ _ _ h).1

/-! ### The active sample set only ever shrinks -/

lemma trimStage_sl_subset (env : Env) (s : St) :
    (trimStage env s).sequence_list ⊆ s.sequence_list := by
  rw [trimStage]
  dsimp only
  split
  · exact fun x h => h
  · split
    · exact fun x h => h
    · exact List.erase_subset _ _

lemma fastqcStage_sl (env : Env) (s : St) :
    (fastqcStage env s).sequence_list = s.sequence_list := by
  rw [fastqcStage]
  dsimp only [addStage]
  split
  · rfl
  · split <;> rfl

lemma assemblyStage_sl (env : Env) (s : St) :
    (assemblyStage env s).sequence_list = s.sequence_list := by
  rw [assemblyStage]
  dsimp only
  split <;> rfl

lemma depthItem_sl_subset (env : Env) (st : St) (item : String) :
    (depthItem env st item).sequence_list ⊆ st.sequence_list := by
  rw [depthItem]
  dsimp only
  split
  · exact fun x h => h
  · exact List.erase_subset _ _

lemma depthFold_sl_subset (env : Env) :
    ∀ (items : List String) (st : St),
      (items.foldl (depthItem env) st).sequence_list ⊆ st.sequence_list := by
  intro items
  induction items with
  | nil => intro st; exact fun x h => h
  | cons i t ih =>
    intro st
    exact (ih (depthItem env st i)).trans (depthItem_sl_subset env st i)

lemma depthStage_sl_subset (env : Env) (s : St) :
    (depthStage env s).sequence_list ⊆ s.sequence_list := by
  rw [depthStage]
  dsimp only [addStage]
  split
  · exact fun x h => h
  · exact depthFold_sl_subset env _ _

lemma stage2_sl_subset (args : Args) (env : Env) (s : St) :
    (stage2 args env s).sequence_list ⊆ s.sequence_list := by
  rw [stage2]
  split
  · rw [fastqcStage_sl]
    exact fun x h => h
  · exact fun x h => h

lemma stage4_sl (args : Args) (s : St) :
    (stage4 args s).sequence_list = s.sequence_list := by
  rw [stage4]; split <;> rfl

lemma stage5_sl (args : Args) (s : St) :
    (stage5 args s).sequence_list = s.sequence_list := by
  rw [stage5]; split <;> rfl

lemma stage6_sl_subset (args : Args) (env : Env) (s : St) :
    (stage6 args env s).sequence_list ⊆ s.sequence_list := by
  rw [stage6]
  split
  · exact depthStage_sl_subset env s
  · exact fun x h => h

lemma stage7_sl (args : Args) (s : St) :
    (stage7 args s).sequence_list = s.sequence_list := by
  rw [stage7]; split <;> rfl

lemma chainFns_sl_subset (args : Args) (env : Env) :
    ∀ f ∈ chainFns args env, ∀ st : St, (f st).sequence_list ⊆ st.sequence_list := by
  intro f hf st
  rw [chainFns] at hf
  simp only [List.mem_cons, List.not_mem_nil, or_false] at hf
  rcases hf with rfl | rfl | rfl | rfl | rfl | rfl | rfl
  · exact trimStage_sl_subset env st
  · exact stage2_sl_subset args env st
  · rw [assemblyStage_sl]; exact fun x h => h
  · rw [stage4_sl]; exact fun x h => h
  · rw [stage5_sl]; exact fun x h => h
  · exact stage6_sl_subset args env st
  · rw [stage7_sl]; exact fun x h => h

lemma chainStates_getD_zero (s : St) (fns : List (St → St)) :
    (chainStates s fns).getD 0 stDefault = s := by
  cases fns <;> rfl

lemma chainStates_step (fns : List (St → St))
    (hf : ∀ f ∈ fns, ∀ st : St, (f st).sequence_list ⊆ st.sequence_list) :
    ∀ (s : St) (k : Nat),
      ((chainStates s fns).getD (k+1) stDefault).sequence_list ⊆
      ((chainStates s fns).getD k stDefault).sequence_list := by
  induction fns with
  | nil =>
    intro s k
    cases k with
    | zero => intro x h; simp [chainStates, stDefault] at h
    | succ k => intro x h; simp [chainStates, stDefault] at h
  | cons f fs ih =>
    intro s k
    cases k with
    | zero =>
      show ((chainStates (f s) fs).getD 0 stDefault).sequence_list ⊆ s.sequence_list
      rw [chainStates_getD_zero]
      exact hf f (List.mem_cons_self f fs) s
    | succ k =>
      show ((chainStates (f s) fs).getD (k+1) stDefault).sequence_list ⊆
        ((chainStates (f s) fs).getD k stDefault).sequence_list
      exact ih (fun g hg => hf g (List.mem_cons_of_mem f hg)) (f s) k

/-- The final driver state is the last element of the driver state chain. -/
lemma pipeline_eq_getLast (args : Args) (env : Env) (st0 : St) :
    pipeline args env st0 = (runStages args env st0).getLastD stDefault := by
  rw [pipeline, runStages]
  generalize chainFns args env = fns
  induction fns generalizing st0 with
  | nil => rfl
  | cons f fs ih =>
    rw [chainStates, List.foldl_cons]
    rw [ih (f st0)]
    cases fs <;> simp [chainStates]

/-! ## Claim theorems -/

/-- C4: once a sample is out of the active sample set after some stage of the
driver chain, it is absent from the active set after every later stage of the
same run — failures are sticky; a removed sample never re-enters. -/
theorem C4_failure_is_sticky :
    ∀ (args : Args) (env : Env) (st0 : St) (i j : Nat) (x : String), i ≤ j →
      x ∉ ((runStages args env st0).getD i stDefault).sequence_list →
      x ∉ ((runStages args env st0).getD j stDefault).sequence_list := by
  intro args env st0 i j x hij hi
  induction j, hij using Nat.le_induction with
  | base => exact hi
  | succ j hij ih =>
    intro hmem
    exact ih (chainStates_step (chainFns args env) (chainFns_sl_subset args env) st0 j hmem)

/-- C4 witness: a concrete instance at stage indices 0 and 7. -/
theorem C4_witness :
    (0 : Nat) ≤ 7 ∧
      "Z" ∉ ((runStages argsAll envIdeal ⟨["A"], [], [], [], []⟩).getD 7 stDefault).sequence_list :=
  ⟨by decide,
    C4_failure_is_sticky argsAll envIdeal ⟨["A"], [], [], [], []⟩ 0 7 "Z" (by decide) (by decide)⟩

/-- C1: whenever discovery finds `.fastq.gz` input and some sample is missing
one of its two mates, `main` exits (`sys.exit`, line 212) before any stage:
no worker is dispatched, no stage block is entered, and no manifest is
written — no sample is active in any stage. -/
theorem C1_halts_on_unpaired_input :
    ∀ (args : Args) (env : Env),
      env.listing.any (fun f => pyEndsWith f ".fastq.gz") = true →
      (missingOf env).isEmpty = false →
      (mainModel args env).outcome = .pairingHalt ∧
      (mainModel args env).dispatched = [] ∧
      (mainModel args env).stagesRun = [] ∧
      (mainModel args env).manifests = none := by
  intro args env h1 h2
  simp [mainModel, h1, h2]

/-- C1 witness: a directory holding only `A_1.fastq.gz`. -/
theorem C1_witness :
    envOneMiss.listing.any (fun f => pyEndsWith f ".fastq.gz") = true ∧
    (missingOf envOneMiss).isEmpty = false ∧
    (mainModel argsAll envOneMiss).outcome = .pairingHalt :=
  ⟨by decide, by decide,
    (C1_halts_on_unpaired_input argsAll envOneMiss (by decide) (by decide)).1⟩

/-- C10: with no file ending in `.fastq.gz`, `main` logs the input-format
error but still falls through to the report section, where `seq_df`
references the never-assigned `sequence_list` and the process dies with an
unhandled `NameError` instead of exiting cleanly. -/
theorem C10_namefault_on_empty_input :
    ∀ (args : Args) (env : Env),
      env.listing.any (fun f => pyEndsWith f ".fastq.gz") = false →
      (mainModel args env).outcome = .nameFault ∧
      (mainModel args env).logs = ["ERROR: Please provide input files in fastq.gz format."] ∧
      (mainModel args env).manifests = none ∧
      (mainModel args env).report = none := by
  intro args env h
  simp [mainModel, h]

/-- C10 witness: a directory with a single non-FASTQ file. -/
theorem C10_witness :
    envNoInput.listing.any (fun f => pyEndsWith f ".fastq.gz") = false ∧
    (mainModel argsAll envNoInput).outcome = .nameFault :=
  ⟨by decide, (C10_namefault_on_empty_input argsAll envNoInput (by decide)).1⟩

/-- C2 (code bug): the assembly job chains `unicycler` and
`touch ..._Assembly_complete.txt` with `;`, so the completion sentinel is
created even when unicycler exits non-zero — against the claimed invariant —
and the failed sample is then skipped on resume.  The read-depth stage, by
contrast, touches its sentinel only after its tool commands succeed: on the
failing run `envAsmFail` (sample `S1`, unicycler and depth tools failing) the
assembly sentinel is present, the depth sentinel is absent, and `S1` is
recorded as failed. -/
theorem C2_marker_written_despite_failed_worker :
    assemblyMarkerTouched "S1" false = true ∧
    "success/S1_Assembly_complete.txt" ∈ (mainModel argsAll envAsmFail).markers ∧
    depthMarkerTouched "S1" false = false ∧
    "success/S1_readDepth.Success" ∉ (mainModel argsAll envAsmFail).markers ∧
    (mainModel argsAll envAsmFail).manifests = some ([], ["S1"]) := by
  decide

/-- C3 (code bug): on `envTrimFail` the trimming batch over pending samples
`A, B` reports a non-zero status (as happens whenever any one trim_galore
job fails, e.g. sample `A`); the `except:` clause removes and records the
dangling loop variable — the last element of the uniq set iteration, `B` —
so `B` lands in the failed manifest and `A` stays active, regardless of which
sample actually failed. -/
theorem C3_dangling_loop_variable_removed :
    (mainModel argsAll envTrimFail).manifests = some (["A"], ["B"]) ∧
    (pyDedup
        ((file_exists ["A", "B"] "trimgalore" "./trimmed_reads/" "_1_val_1.fq.gz" (fun _ => false)).getD []
          ++ (file_exists ["A", "B"] "trimgalore" "./trimmed_reads/" "_2_val_2.fq.gz" (fun _ => false)).getD [])).getLastD ""
      = "B" := by
  decide

/-! ### C5: work items are queued only for absent markers -/

lemma assemblyStage_dispatch (env : Env) (s : St) (w : String)
    (h : ("assembly", w) ∈ (assemblyStage env s).dispatched) :
    ("assembly", w) ∈ s.dispatched ∨
      (w ∈ s.sequence_list ∧ env.present ("success/" ++ w ++ "_Assembly_complete.txt") = false) := by
  rw [assemblyStage] at h
  dsimp only at h
  split at h
  · exact Or.inl h
  · dsimp only at h
    rcases List.mem_append.mp h with h | h
    · exact Or.inl h
    · right
      obtain ⟨i, hi, heq⟩ := List.mem_map.mp h
      obtain ⟨-, rfl⟩ := Prod.mk.injEq .. ▸ heq
      have hm := List.mem_filter.mp (pyDedup_subset _ _ hi)
      exact ⟨hm.1, by simpa using hm.2⟩

lemma depthItem_dispatch (env : Env) (st : St) (item w : String)
    (h : ("depth", w) ∈ (depthItem env st item).dispatched) :
    ("depth", w) ∈ st.dispatched ∨ w = item := by
  rw [depthItem] at h
  dsimp only at h
  split at h <;>
  · rcases List.mem_append.mp h with h | h
    · exact Or.inl h
    · right
      simpa using congrArg Prod.snd (List.mem_singleton.mp h)

lemma depthFold_dispatch (env : Env) :
    ∀ (items : List String) (st : St) (w : String),
      ("depth", w) ∈ (items.foldl (depthItem env) st).dispatched →
      ("depth", w) ∈ st.dispatched ∨ w ∈ items := by
  intro items
  induction items with
  | nil => intro st w h; exact Or.inl h
  | cons i t ih =>
    intro st w h
    rcases ih (depthItem env st i) w h with h | h
    · rcases depthItem_dispatch env st i w h with h | rfl
      · exact Or.inl h
      · exact Or.inr (List.mem_cons_self w t)
    · exact Or.inr (List.mem_cons_of_mem i h)

lemma depthStage_dispatch (env : Env) (s : St) (w : String)
    (h : ("depth", w) ∈ (depthStage env s).dispatched) :
    ("depth", w) ∈ s.dispatched ∨
      (w ∈ s.sequence_list ∧ env.present ("success/" ++ w ++ "_readDepth.Success") = false) := by
  rw [depthStage] at h
  dsimp only [addStage] at h
  split at h
  · exact Or.inl h
  · rcases depthFold_dispatch env _ _ w h with h | h
    · exact Or.inl h
    · right
      have hm := List.mem_filter.mp (pyDedup_subset _ _ h)
      exact ⟨hm.1, by simpa using hm.2⟩

/-- C5: work items are queued only for samples whose sentinel (or expected
output file) is absent — `file_exists` returns exactly the listed samples
whose `path + seq + extention` is missing, and the assembly and depth stages
dispatch only samples without their `success/` sentinel.  Concretely: a pure
resume with everything on disk (`envAllDone`) dispatches zero workers, and
with assembly sentinels for `A, B` but not `C` (`envABC`) only `C` is
dispatched to the assembly stage. -/
theorem C5_only_unmarked_samples_queued :
    (∀ (seqlist : List String) (program path extention : String)
        (present : String → Bool) (w : String),
        w ∈ (file_exists seqlist program path extention present).getD [] →
        w ∈ seqlist ∧ present (path ++ w ++ extention) = false) ∧
    (∀ (env : Env) (s : St) (w : String),
        ("assembly", w) ∈ (assemblyStage env s).dispatched →
        ("assembly", w) ∈ s.dispatched ∨
          (w ∈ s.sequence_list ∧ env.present ("success/" ++ w ++ "_Assembly_complete.txt") = false)) ∧
    (∀ (env : Env) (s : St) (w : String),
        ("depth", w) ∈ (depthStage env s).dispatched →
        ("depth", w) ∈ s.dispatched ∨
          (w ∈ s.sequence_list ∧ env.present ("success/" ++ w ++ "_readDepth.Success") = false)) ∧
    (mainModel argsAll envAllDone).dispatched = [] ∧
    (mainModel argsAll envABC).dispatched.filter (fun d => d.1 == "assembly") = [("assembly", "C")] :=
  ⟨file_exists_mem, assemblyStage_dispatch, depthStage_dispatch, by decide, by decide⟩

/-- C5 witness: the trimmed output of `C` is absent, so `C` is queued and its
checked path is indeed missing. -/
theorem C5_witness :
    "C" ∈ (file_exists ["C"] "trimgalore" "./trimmed_reads/" "_1_val_1.fq.gz" (fun _ => false)).getD [] ∧
    ("C" ∈ ["C"] ∧ (fun _ => false) ("./trimmed_reads/" ++ "C" ++ "_1_val_1.fq.gz") = false) :=
  ⟨by decide,
    C5_only_unmarked_samples_queued.1 ["C"] "trimgalore" "./trimmed_reads/" "_1_val_1.fq.gz"
      (fun _ => false) "C" (by decide)⟩

/-! ### C7: a missing upstream report table crashes the process -/

/-- C7 counterexample: on an otherwise fault-free run of sample `A` with
`analyses/mlst.tsv` absent, the report step raises an unhandled fault: the
whole report (and process) is cancelled — nothing degrades column-by-column —
even though the manifests were already written.  Together with the `NameError`
of the empty-input run this refutes the claimed propagation policy. -/
theorem C7_counterexample :
    (mainModel argsAll envNoMlst).outcome = .readFault "analyses/mlst.tsv" ∧
    (mainModel argsAll envNoMlst).report = none ∧
    (mainModel argsAll envNoMlst).manifests = some (["A"], []) := by
  decide

/-- C7 amended: per-sample worker errors are caught and logged, but the
report step performs unguarded table reads — whenever a run reaches the
report section and `analyses/mlst.tsv` is absent, the process dies with the
unhandled read fault and no report is produced. -/
theorem C7_missing_table_is_fatal :
    ∀ (args : Args) (env : Env),
      env.listing.any (fun f => pyEndsWith f ".fastq.gz") = true →
      (missingOf env).isEmpty = true →
      env.mlstTable = none →
      (mainModel args env).outcome = .readFault "analyses/mlst.tsv" ∧
      (mainModel args env).report = none := by
  intro args env h1 h2 h3
  simp [mainModel, h1, h2, reportStep, h3]

/-- C7 witness: the concrete run `envNoMlst`. -/
theorem C7_witness :
    envNoMlst.mlstTable = none ∧ (mainModel argsAll envNoMlst).report = none :=
  ⟨rfl, (C7_missing_table_is_fatal argsAll envNoMlst (by decide) (by decide) rfl).2⟩

/-! ### C9: what `--noex` suppresses -/

lemma trimStage_tags (env : Env) (s : St) (x : String)
    (h : x ∈ (trimStage env s).stagesRun) : x ∈ s.stagesRun ∨ x = "trim" := by
  rw [trimStage] at h
  dsimp only at h
  split at h
  · exact Or.inl h
  · split at h <;>
    · dsimp only at h
      rcases List.mem_append.mp h with h | h
      · exact Or.inl h
      · exact Or.inr (List.mem_singleton.mp h)

lemma assemblyStage_tags (env : Env) (s : St) (x : String)
    (h : x ∈ (assemblyStage env s).stagesRun) : x ∈ s.stagesRun ∨ x = "assembly" := by
  rw [assemblyStage] at h
  dsimp only at h
  split at h
  · exact Or.inl h
  · dsimp only at h
    rcases List.mem_append.mp h with h | h
    · exact Or.inl h
    · exact Or.inr (List.mem_singleton.mp h)

lemma stage7_tags (args : Args) (s : St) (x : String)
    (h : x ∈ (stage7 args s).stagesRun) : x ∈ s.stagesRun ∨ x = "kleborate" := by
  rw [stage7] at h
  split at h
  · dsimp only [addStage] at h
    rcases List.mem_append.mp h with h | h
    · exact Or.inl h
    · exact Or.inr (List.mem_singleton.mp h)
  · exact Or.inl h

lemma stage2_noex (args : Args) (env : Env) (h : args.noex = true) (s : St) :
    stage2 args env s = s := by
  simp [stage2, h]

lemma stage4_noex (args : Args) (h : args.noex = true) (s : St) :
    stage4 args s = s := by
  simp [stage4, h]

lemma stage5_noex (args : Args) (h : args.noex = true) (s : St) :
    stage5 args s = s := by
  simp [stage5, h]

lemma stage6_noex (args : Args) (env : Env) (h : args.noex = true) (s : St) :
    stage6 args env s = s := by
  simp [stage6, h]

/-- The driver's final state, written as the composition of the seven stage
blocks. -/
lemma pipeline_unfold (args : Args) (env : Env) (st0 : St) :
    pipeline args env st0 =
      stage7 args (stage6 args env (stage5 args (stage4 args
        (assemblyStage env (stage2 args env (trimStage env st0)))))) := rfl

lemma stagesRun_noex (args : Args) (env : Env) (st0 : St) (h : args.noex = true)
    (x : String) (hx : x ∈ (pipeline args env st0).stagesRun) :
    x ∈ st0.stagesRun ∨ x = "trim" ∨ x = "assembly" ∨ x = "kleborate" := by
  rw [pipeline_unfold, stage2_noex args env h, stage4_noex args h,
    stage5_noex args h, stage6_noex args env h] at hx
  rcases stage7_tags _ _ _ hx with hx | rfl
  · rcases assemblyStage_tags _ _ _ hx with hx | rfl
    · rcases trimStage_tags _ _ _ hx with hx | rfl
      · exact Or.inl hx
      · exact Or.inr (Or.inl rfl)
    · exact Or.inr (Or.inr (Or.inl rfl))
  · exact Or.inr (Or.inr (Or.inr rfl))

/-- C9 counterexample: with `--noex --klebs`, the Kleborate block still runs
after assembly — the run enters exactly the trim, assembly and kleborate
blocks, so it is false that only trimming and assembly run. -/
theorem C9_counterexample :
    argsNoexKlebs.noex = true ∧
    "kleborate" ∈ (mainModel argsNoexKlebs envIdeal).stagesRun ∧
    (mainModel argsNoexKlebs envIdeal).stagesRun = ["trim", "assembly", "kleborate"] := by
  decide

/-- C9 amended: `--noex` suppresses the FastQC/MultiQC, Quast, MLST and
read-depth blocks in every run — but not the extended-typing (Kleborate)
block, which runs whenever its own switch is set. -/
theorem C9_noex_suppresses_extras :
    ∀ (args : Args) (env : Env), args.noex = true →
      "fastqc_multiqc" ∉ (mainModel args env).stagesRun ∧
      "quast" ∉ (mainModel args env).stagesRun ∧
      "mlst" ∉ (mainModel args env).stagesRun ∧
      "depth" ∉ (mainModel args env).stagesRun := by
  intro args env h
  have key : ∀ x, x ∈ (mainModel args env).stagesRun →
      x = "trim" ∨ x = "assembly" ∨ x = "kleborate" := by
    intro x hx
    rw [mainModel] at hx
    split at hx
    · split at hx
      · split at hx <;>
        · dsimp only at hx
          rcases stagesRun_noex args env _ h x hx with hx | hx
          · simp [finalSt] at hx
          · exact hx
      · dsimp only at hx
        exact absurd hx (List.not_mem_nil x)
    · dsimp only at hx
      exact absurd hx (List.not_mem_nil x)
  refine ⟨?_, ?_, ?_, ?_⟩ <;> intro hmem <;> rcases key _ hmem with h' | h' | h' <;> simp at h'

/-- C9 witness: the amended statement at the `--noex --klebs` run. -/
theorem C9_witness :
    argsNoexKlebs.noex = true ∧
    "quast" ∉ (mainModel argsNoexKlebs envIdeal).stagesRun :=
  ⟨rfl, (C9_noex_suppresses_extras argsNoexKlebs envIdeal rfl).2.1⟩

/-! ### C6: the outer join never drops a sample row -/

lemma mergeRow_key (t2 : Table) (k : String) (cs : List (Option String)) :
    ∃ cs2, (k, cs2) ∈ mergeRow t2 (k, cs) := by
  rw [mergeRow]
  dsimp only
  split
  · exact ⟨cs ++ padRow t2.width, List.mem_singleton_self _⟩
  · rename_i hne
    have hne2 : t2.rows.filter (fun r2 => r2.1 == k) ≠ [] := by
      intro h0
      rw [h0] at hne
      exact hne rfl
    obtain ⟨a, ha⟩ := List.exists_mem_of_ne_nil _ hne2
    exact ⟨cs ++ a.2, List.mem_map_of_mem _ ha⟩

lemma mergeOuter_key (t1 t2 : Table) (k : String) (cs : List (Option String))
    (h : (k, cs) ∈ t1.rows) : ∃ cs2, (k, cs2) ∈ (mergeOuter t1 t2).rows := by
  obtain ⟨cs2, h2⟩ := mergeRow_key t2 k cs
  refine ⟨cs2, ?_⟩
  rw [mergeOuter]
  dsimp only
  apply List.mem_append_left
  rw [List.mem_flatten]
  exact ⟨mergeRow t2 (k, cs), List.mem_map_of_mem _ h, h2⟩

lemma mergeOuter_pad (t1 t2 : Table) (k : String) (cs : List (Option String))
    (h : (k, cs) ∈ t1.rows) (hn : ∀ r2 ∈ t2.rows, (r2.1 == k) = false) :
    (k, cs ++ padRow t2.width) ∈ (mergeOuter t1 t2).rows := by
  rw [mergeOuter]
  dsimp only
  apply List.mem_append_left
  rw [List.mem_flatten]
  refine ⟨mergeRow t2 (k, cs), List.mem_map_of_mem _ h, ?_⟩
  rw [mergeRow]
  dsimp only
  have hfil : t2.rows.filter (fun r2 => r2.1 == k) = [] := by
    rw [List.filter_eq_nil_iff]
    intro a ha
    simp [hn a ha]
  rw [hfil]
  exact List.mem_singleton_self _

lemma reportTables_key (sequence_list : List String) (m q c f : Table)
    (s : String) (hs : s ∈ sequence_list) :
    ∃ cells, (s, cells) ∈ (reportTables sequence_list m q c f).rows := by
  rw [reportTables]
  have h0 : (s, ([] : List (Option String))) ∈
      (sequence_list.map (fun s => (s, ([] : List (Option String))))) :=
    List.mem_map_of_mem _ hs
  obtain ⟨c1, h1⟩ := mergeOuter_key ⟨0, sequence_list.map (fun s => (s, []))⟩
    (normTable "_assembly.fasta" m) s [] h0
  obtain ⟨c2, h2⟩ := mergeOuter_key _ (normTable "_assembly" q) s c1 h1
  obtain ⟨c3, h3⟩ := mergeOuter_key _ (normTable " " c) s c2 h2
  obtain ⟨c4, h4⟩ := mergeOuter_key _
    ⟨(normTable "_2_val_2" (normTable "_1_val_1" f)).width,
      pyDedup (normTable "_2_val_2" (normTable "_1_val_1" f)).rows⟩ s c3 h3
  exact ⟨c4, h4⟩

lemma reportStep_ok_key (env : Env) (sequence_list : List String) (t : Table)
    (hok : reportStep env sequence_list = .ok t) :
    ∀ s ∈ sequence_list, ∃ cells, (s, cells) ∈ t.rows := by
  intro s hs
  rw [reportStep] at hok
  split at hok
  · exact absurd hok (by simp)
  · exact absurd hok (by simp)
  · exact absurd hok (by simp)
  · exact absurd hok (by simp)
  · injection hok with h
    rw [← h]
    exact reportTables_key sequence_list _ _ _ _ s hs

/-- C6: every sample of the final successful sample list has a row in the
produced report, because each stage table is combined by an outer join keyed
on the normalised sample identity — and when a stage table has no entry for
the key, the merged row is padded with empty cells rather than dropped. -/
theorem C6_report_keeps_every_sample :
    (∀ (args : Args) (env : Env) (t : Table) (suc fail : List String) (s : String),
        (mainModel args env).report = some t →
        (mainModel args env).manifests = some (suc, fail) →
        s ∈ suc → ∃ cells, (s, cells) ∈ t.rows) ∧
    (∀ (t1 t2 : Table) (k : String) (cs : List (Option String)),
        (k, cs) ∈ t1.rows → (∀ r2 ∈ t2.rows, (r2.1 == k) = false) →
        (k, cs ++ padRow t2.width) ∈ (mergeOuter t1 t2).rows) := by
  constructor
  · intro args env t suc fail s hrep hman hs
    rw [mainModel] at hrep hman
    by_cases h1 : (env.listing.any fun f => pyEndsWith f ".fastq.gz") = true
    · rw [if_pos h1] at hrep hman
      by_cases h2 : (missingOf env).isEmpty = true
      · rw [if_pos h2] at hrep hman
        rcases hr : reportStep env (finalSt args env).sequence_list with e | tt
        · rw [hr] at hrep
          cases e with
          | missingTable p => simp at hrep
        · rw [hr] at hrep hman
          simp only [Option.some.injEq, Prod.mk.injEq] at hrep hman
          obtain ⟨hsuc, hfail⟩ := hman
          subst hrep
          subst hsuc
          exact reportStep_ok_key env _ _ hr s hs
      · rw [if_neg h2] at hman
        simp at hman
    · rw [if_neg h1] at hman
      simp at hman
  · intro t1 t2 k cs h hn
    exact mergeOuter_pad t1 t2 k cs h hn

/-- C6 witness: the concrete fault-free run of sample `A` with empty stage
tables. -/
theorem C6_witness :
    (mainModel argsAll envIdeal).report = some ⟨0, [("A", [])]⟩ ∧
    (mainModel argsAll envIdeal).manifests = some (["A"], []) ∧
    "A" ∈ ["A"] ∧
    ∃ cells, ("A", cells) ∈ (⟨0, [("A", [])]⟩ : Table).rows :=
  ⟨by decide, by decide, by decide,
    C6_report_keeps_every_sample.1 argsAll envIdeal ⟨0, [("A", [])]⟩ ["A"] [] "A"
      (by decide) (by decide) (by decide)⟩

/-! ### C8: the two manifests against the discovered samples -/

/-- The run invariant relating the active list and the failed accumulator to
the discovered identities: the active list is duplicate-free and drawn from
the discovered identities, every discovered identity is in one of the two
lists, and nothing recorded as failed is still active. -/
def InvP (ids sl uns : List String) : Prop :=
  sl.Nodup ∧ sl ⊆ ids ∧ (∀ x ∈ ids, x ∈ sl ∨ x ∈ uns) ∧ (∀ x ∈ uns, x ∉ sl)

/-- No discovered identity is literally another discovered identity with a
trimmed-read file suffix attached — the sanity condition under which the
FastQC failure path (which records a file name, not a sample) cannot hit an
active sample identity. -/
def NoValCollision (ids : List String) : Prop :=
  ∀ t ∈ ids, (t ++ "_1_val_1.fq.gz") ∉ ids ∧ (t ++ "_2_val_2.fq.gz") ∉ ids

lemma InvP_erase_append (ids sl uns : List String) (item : String)
    (h : InvP ids sl uns) : InvP ids (sl.erase item) (uns ++ [item]) := by
  obtain ⟨h1, h2, h3, h4⟩ := h
  refine ⟨h1.erase item, (List.erase_subset _ _).trans h2, ?_, ?_⟩
  · intro x hx
    rcases h3 x hx with hsl | hun
    · by_cases hxi : x = item
      · subst hxi
        exact Or.inr (List.mem_append_right _ (List.mem_singleton_self x))
      · exact Or.inl ((List.mem_erase_of_ne hxi).mpr hsl)
    · exact Or.inr (List.mem_append_left _ hun)
  · intro y hy
    rcases List.mem_append.mp hy with hy | hy
    · intro hmem
      exact h4 y hy (List.erase_subset _ _ hmem)
    · rw [List.mem_singleton] at hy
      subst hy
      intro hmem
      exact ((h1.mem_erase_iff).mp hmem).1 rfl

lemma InvP_append_outsider (ids sl uns : List String) (w : String)
    (h : InvP ids sl uns) (hw : w ∉ ids) : InvP ids sl (uns ++ [w]) := by
  obtain ⟨h1, h2, h3, h4⟩ := h
  refine ⟨h1, h2, ?_, ?_⟩
  · intro x hx
    rcases h3 x hx with a | a
    · exact Or.inl a
    · exact Or.inr (List.mem_append_left _ a)
  · intro y hy
    rcases List.mem_append.mp hy with hy | hy
    · exact h4 y hy
    · rw [List.mem_singleton] at hy
      subst hy
      intro hmem
      exact hw (h2 hmem)

lemma InvP_trim (env : Env) (s : St) (ids : List String)
    (h : InvP ids s.sequence_list s.unsuccessful) :
    InvP ids (trimStage env s).sequence_list (trimStage env s).unsuccessful := by
  rw [trimStage]
  dsimp only
  split
  · exact h
  · split
    · exact h
    · exact InvP_erase_append _ _ _ _ h

/-- The FastQC failure path appends a work-item file name built from an
active sample; under `NoValCollision` that string is never itself a
discovered identity. -/
lemma fastqc_item_outside (env : Env) (sl ids : List String)
    (hcol : NoValCollision ids) (hsub : sl ⊆ ids) (w : String)
    (hw : w ∈ ((file_exists sl "fastqc" "./QC/fastQC/" "_1_val_1_fastqc.zip" env.present).getD []).map
            (fun i => i ++ "_1_val_1.fq.gz")
          ++ ((file_exists sl "fastqc" "./QC/fastQC/" "_2_val_2_fastqc.zip" env.present).getD []).map
            (fun i => i ++ "_2_val_2.fq.gz")) :
    w ∉ ids := by
  rcases List.mem_append.mp hw with hw | hw
  · obtain ⟨i, hi, rfl⟩ := List.mem_map.mp hw
    exact (hcol i (hsub (file_exists_subset _ _ _ _ _ hi))).1
  · obtain ⟨i, hi, rfl⟩ := List.mem_map.mp hw
    exact (hcol i (hsub (file_exists_subset _ _ _ _ _ hi))).2

lemma InvP_fastqc (env : Env) (s : St) (ids : List String)
    (hcol : NoValCollision ids)
    (h : InvP ids s.sequence_list s.unsuccessful) :
    InvP ids (fastqcStage env s).sequence_list (fastqcStage env s).unsuccessful := by
  rw [fastqcStage]
  dsimp only [addStage]
  split
  · exact h
  · split
    · exact h
    · rename_i hne _
      apply InvP_append_outsider _ _ _ _ h
      apply fastqc_item_outside env s.sequence_list ids hcol h.2.1
      apply pyDedup_getLastD_mem
      intro h0
      rw [h0] at hne
      exact hne rfl

lemma InvP_assembly (env : Env) (s : St) (ids : List String)
    (h : InvP ids s.sequence_list s.unsuccessful) :
    InvP ids (assemblyStage env s).sequence_list (assemblyStage env s).unsuccessful := by
  rw [assemblyStage]
  dsimp only
  split
  · exact h
  · exact h

lemma InvP_depthItem (env : Env) (st : St) (item : String) (ids : List String)
    (h : InvP ids st.sequence_list st.unsuccessful) :
    InvP ids (depthItem env st item).sequence_list (depthItem env st item).unsuccessful := by
  rw [depthItem]
  dsimp only
  split
  · exact h
  · exact InvP_erase_append _ _ _ _ h

lemma InvP_depthFold (env : Env) (ids : List String) :
    ∀ (items : List String) (st : St),
      InvP ids st.sequence_list st.unsuccessful →
      InvP ids (items.foldl (depthItem env) st).sequence_list
        (items.foldl (depthItem env) st).unsuccessful := by
  intro items
  induction items with
  | nil => intro st h; exact h
  | cons i t ih => intro st h; exact ih (depthItem env st i) (InvP_depthItem env st i ids h)

lemma InvP_depthStage (env : Env) (s : St) (ids : List String)
    (h : InvP ids s.sequence_list s.unsuccessful) :
    InvP ids (depthStage env s).sequence_list (depthStage env s).unsuccessful := by
  rw [depthStage]
  dsimp only [addStage]
  split
  · exact h
  · exact InvP_depthFold env ids _ _ h

lemma InvP_stage2 (args : Args) (env : Env) (s : St) (ids : List String)
    (hcol : NoValCollision ids)
    (h : InvP ids s.sequence_list s.unsuccessful) :
    InvP ids (stage2 args env s).sequence_list (stage2 args env s).unsuccessful := by
  rw [stage2]
  split
  · exact InvP_fastqc env s ids hcol h
  · exact h

lemma InvP_stage4 (args : Args) (s : St) (ids : List String)
    (h : InvP ids s.sequence_list s.unsuccessful) :
    InvP ids (stage4 args s).sequence_list (stage4 args s).unsuccessful := by
  rw [stage4]
  split
  · exact h
  · exact h

lemma InvP_stage5 (args : Args) (s : St) (ids : List String)
    (h : InvP ids s.sequence_list s.unsuccessful) :
    InvP ids (stage5 args s).sequence_list (stage5 args s).unsuccessful := by
  rw [stage5]
  split
  · exact h
  · exact h

lemma InvP_stage6 (args : Args) (env : Env) (s : St) (ids : List String)
    (h : InvP ids s.sequence_list s.unsuccessful) :
    InvP ids (stage6 args env s).sequence_list (stage6 args env s).unsuccessful := by
  rw [stage6]
  split
  · exact InvP_depthStage env s ids h
  · exact h

lemma InvP_stage7 (args : Args) (s : St) (ids : List String)
    (h : InvP ids s.sequence_list s.unsuccessful) :
    InvP ids (stage7 args s).sequence_list (stage7 args s).unsuccessful := by
  rw [stage7]
  split
  · exact h
  · exact h

lemma InvP_pipeline (args : Args) (env : Env) (st0 : St) (ids : List String)
    (hcol : NoValCollision ids)
    (h : InvP ids st0.sequence_list st0.unsuccessful) :
    InvP ids (pipeline args env st0).sequence_list (pipeline args env st0).unsuccessful := by
  rw [pipeline_unfold]
  exact InvP_stage7 _ _ _ (InvP_stage6 _ _ _ _ (InvP_stage5 _ _ _ (InvP_stage4 _ _ _
    (InvP_assembly _ _ _ (InvP_stage2 _ _ _ _ hcol (InvP_trim _ _ _ h))))))

lemma appendIfNew_nodup (c : Bool) (acc : List String) (b : String)
    (h : acc.Nodup) : (if c && !(acc.contains b) then acc ++ [b] else acc).Nodup := by
  split
  · rename_i hc
    rw [Bool.and_eq_true] at hc
    have hb : b ∉ acc := by
      have h2 := hc.2
      rw [Bool.not_eq_true'] at h2
      intro hmem
      have h3 : acc.contains b = true := List.elem_eq_true_of_mem hmem
      rw [h2] at h3
      exact Bool.false_ne_true h3
    rw [List.nodup_append]
    refine ⟨h, List.nodup_singleton b, ?_⟩
    intro a ha ha2
    rw [List.mem_singleton] at ha2
    subst ha2
    exact hb ha
  · exact h

lemma deriveIds_nodup : ∀ (l acc : List String), acc.Nodup → (deriveIds acc l).Nodup := by
  intro l
  induction l with
  | nil => intro acc h; exact h
  | cons a t ih =>
    intro acc h
    rw [deriveIds]
    exact ih _ (appendIfNew_nodup _ _ _ (appendIfNew_nodup _ _ _ h))

/-- C8 counterexample: on `envCollide` the discovered identities are
`A_2_val_2.fq.gz`, `A_2_val_2.fq` and `A` (repeated `.gz` stripping can
manufacture identities containing `.gz`), all pairs validate, and the FastQC
batch fails.  The failure path appends the dangling work-item file name —
`A` suffixed with `_2_val_2.fq.gz`, which is itself a discovered, still
active sample — so that sample ends the run in both the successful and the
failed manifest. -/
theorem C8_counterexample :
    (mainModel argsAll envCollide).manifests
        = some (["A_2_val_2.fq.gz", "A_2_val_2.fq", "A"], ["A_2_val_2.fq.gz"]) ∧
    "A_2_val_2.fq.gz" ∈ discoveredIds envCollide ∧
    "A_2_val_2.fq.gz" ∈ ["A_2_val_2.fq.gz", "A_2_val_2.fq", "A"] ∧
    "A_2_val_2.fq.gz" ∈ ["A_2_val_2.fq.gz"] := by
  decide

/-- C8 amended: whenever no discovered identity collides with a trimmed-read
work-item file name of another discovered identity, the run-end manifests
partition the discovered samples — each discovered sample is in exactly one
of the two, and nothing in the failed manifest is still in the successful
one. -/
theorem C8_manifests_partition :
    ∀ (args : Args) (env : Env) (suc fail : List String),
      (mainModel args env).manifests = some (suc, fail) →
      NoValCollision (discoveredIds env) →
      (∀ x ∈ discoveredIds env, (x ∈ suc ∧ x ∉ fail) ∨ (x ∉ suc ∧ x ∈ fail)) ∧
      (∀ x ∈ fail, x ∉ suc) := by
  intro args env suc fail hman hcol
  rw [mainModel] at hman
  by_cases h1 : (env.listing.any fun f => pyEndsWith f ".fastq.gz") = true
  · rw [if_pos h1] at hman
    by_cases h2 : (missingOf env).isEmpty = true
    · rw [if_pos h2] at hman
      have hfin : InvP (discoveredIds env) (finalSt args env).sequence_list
          (finalSt args env).unsuccessful := by
        apply InvP_pipeline args env _ _ hcol
        refine ⟨deriveIds_nodup _ [] List.nodup_nil, fun x hx => hx, fun x hx => Or.inl hx, ?_⟩
        intro x hx
        exact absurd hx (List.not_mem_nil x)
      have hpair : (finalSt args env).sequence_list = suc ∧
          (finalSt args env).unsuccessful = fail := by
        rcases hr : reportStep env (finalSt args env).sequence_list with e | tt
        · rw [hr] at hman
          cases e with
          | missingTable p =>
            simpa using hman
        · rw [hr] at hman
          simpa using hman
      obtain ⟨hsuc, hfail⟩ := hpair
      subst hsuc
      subst hfail
      refine ⟨?_, hfin.2.2.2⟩
      intro x hx
      rcases hfin.2.2.1 x hx with hs | hu
      · exact Or.inl ⟨hs, fun hf => hfin.2.2.2 x hf hs⟩
      · exact Or.inr ⟨hfin.2.2.2 x hu, hu⟩
    · rw [if_neg h2] at hman
      simp at hman
  · rw [if_neg h1] at hman
    simp at hman

/-- C8 witness: the fault-free single-sample run, whose identities are
collision-free. -/
theorem C8_witness :
    (mainModel argsAll envIdeal).manifests = some (["A"], []) ∧
    NoValCollision (discoveredIds envIdeal) ∧
    (("A" ∈ ["A"] ∧ "A" ∉ ([] : List String)) ∨
      ("A" ∉ ["A"] ∧ "A" ∈ ([] : List String))) :=
  ⟨by decide, by unfold NoValCollision; decide,
    (C8_manifests_partition argsAll envIdeal ["A"] [] (by decide)
      (by unfold NoValCollision; decide)).1 "A" (by decide)⟩


end Asmbl
